import Mathlib

/-!
Verification of the runtime core of `vuex-tstore`, a typed proxy layer over a
Vuex store.  The definitions below are a shallow embedding of the TypeScript
sources (`src/util.ts`, `src/state.ts`, `src/mutations.ts`, `src/actions.ts`,
`src/store.ts`): pure functions become Lean functions, JavaScript values and
state trees become the inductive type `Val`, and calls into the external store
engine become explicit `EngineCall` traces.
-/

namespace VuexTstore

/-- JavaScript-like values: payloads and state trees.  An object is encoded as
an ordered field list (`vobjCons key value rest`, terminated by `vobjNil`),
which mirrors the ordered own-properties of a plain JS object. -/
inductive Val where
  | vnull : Val
  | vnat (n : Nat) : Val
  | vstr (s : String) : Val
  | vobjNil : Val
  | vobjCons (key : String) (value : Val) (rest : Val) : Val
deriving DecidableEq, Repr

/-- Field lookup `obj[key]` on a `Val`.  On a JS object, a present field yields
its value, an absent field yields `undefined`; indexing a non-object primitive
also yields `undefined` (and indexing `undefined`/`null` throws).  Both failure
shapes are modelled as `none`. -/
def Val.get : Val → String → Option Val
  | .vobjCons k v rest, key => if k = key then some v else Val.get rest key
  | _, _ => none

/-- Embedding of `qualifyKey` from `src/util.ts`:
`const key = fn.name; return namespace ? namespace + "/" + key : key`.
The function's declared name is the string `key`; the JS truthiness test
`namespace ?` holds exactly when the namespace string is non-empty. -/
def qualifyKey (key : String) (namespace' : String) : String :=
  if namespace' = "" then key else namespace' ++ "/" ++ key

example : qualifyKey "setTitle" "mod" = "mod/setTitle" := by decide
example : qualifyKey "setTitle" "" = "setTitle" := by decide

/-- C2: for every function name `n` and non-empty namespace `ns`,
`qualifyKey n ns = ns ++ "/" ++ n`; for the empty namespace the name is
returned unchanged.  The function is a pure Lean definition (no effects) and
performs no escaping and no collision detection: the output is exactly the
concatenation described, whatever the inputs. -/
theorem qualifyKey_spec (n ns : String) :
    (ns ≠ "" → qualifyKey n ns = ns ++ "/" ++ n) ∧ qualifyKey n "" = n := by
  constructor
  · intro h
    simp [qualifyKey, h]
  · simp [qualifyKey]

/-- Witness for C2 at the concrete name `setTitle` and namespace `mod`. -/
theorem qualifyKey_spec_witness :
    qualifyKey "setTitle" "mod" = "mod" ++ "/" ++ "setTitle" ∧
      qualifyKey "setTitle" "" = "setTitle" :=
  ⟨(qualifyKey_spec "setTitle" "mod").1 (by decide),
    (qualifyKey_spec "setTitle" "").2⟩

/-- Helper for `splitSlash`: accumulates the characters of the current segment
(in reverse) and emits a segment at each separator and at the end of input. -/
def splitSlashAux : List Char → List Char → List String
  | [], acc => [String.mk acc.reverse]
  | ch :: rest, acc =>
    if ch = '/' then String.mk acc.reverse :: splitSlashAux rest []
    else splitSlashAux rest (ch :: acc)

/-- JavaScript `namespace.split("/")`: splits on every `/`, keeping empty
segments, and maps the empty string to `[""]` (never to `[]`). -/
def splitSlash (s : String) : List String :=
  splitSlashAux s.data []

example : splitSlash "" = [""] := by decide
example : splitSlash "a/b" = ["a", "b"] := by decide
example : splitSlash "/a" = ["", "a"] := by decide
example : splitSlash "a//b" = ["a", "", "b"] := by decide

/-- Embedding of `wrapState` from `src/state.ts`:
```
const namespacePath = namespace.split("/");
return namespacePath[0]
  ? namespacePath.reduce((mState, path) => mState[path], store.state)
  : store.state;
```
The reduce walks every segment (including the first) with `mState[path]`;
an `undefined` intermediate makes the next index throw, and an absent terminal
segment yields `undefined` — both are `none` here.  The guard is JS truthiness
of `namespacePath[0]`, i.e. the first segment being non-empty. -/
def wrapState (namespace' : String) (storeState : Val) : Option Val :=
  let namespacePath := splitSlash namespace'
  if (namespacePath.headD "") = "" then some storeState
  else namespacePath.foldl (fun mState path => mState.bind (fun t => t.get path))
    (some storeState)

/-- Straightforward segment-by-segment walk of a state tree, as the spec
describes state resolution: index each nested object by segment name, return
the terminal node, and fail as soon as a segment is missing. -/
def resolvePath : List String → Val → Option Val
  | [], t => some t
  | seg :: rest, t =>
    match t.get seg with
    | some t2 => resolvePath rest t2
    | none => none

/-- Folding `Option.bind` over segments agrees with the recursive walk. -/
theorem foldl_bind_eq_resolvePath (segs : List String) (t : Val) :
    segs.foldl (fun mState path => mState.bind (fun u => Val.get u path))
      (some t) = resolvePath segs t := by
  induction segs generalizing t with
  | nil => rfl
  | cons seg rest ih =>
    simp only [List.foldl_cons, resolvePath, Option.bind]
    cases h : t.get seg with
    | none =>
      simp only [h]
      clear ih h
      induction rest with
      | nil => rfl
      | cons s r ihr => simpa using ihr
    | some t2 => simpa [h] using ih t2

/-- Counterexample to C6: the namespace `"/a"` is non-empty and its
intermediate segment `""` does not exist in the state, so per the claim the
resolution should fail; the code instead returns the root state unchanged
(the guard tests the first segment, not the whole string). -/
theorem wrapState_leading_slash_counterexample :
    wrapState "/a" (Val.vobjCons "a" (Val.vnat 1) Val.vobjNil) =
        some (Val.vobjCons "a" (Val.vnat 1) Val.vobjNil) ∧
      "/a" ≠ "" := by
  constructor
  · decide
  · decide

/-- C6 (amended): state resolution returns the root state unchanged exactly
when the first `/`-separated segment of the namespace is empty (in particular
when the namespace is empty); otherwise it walks the tree one segment at a
time from the first segment, indexing each nested object by segment name and
returning the terminal node, and it fails (`none`) as soon as a segment —
intermediate or terminal — is missing, rather than returning a masked value. -/
theorem wrapState_spec (ns : String) (s : Val) :
    wrapState ns s =
      if ((splitSlash ns).headD "") = "" then some s
      else resolvePath (splitSlash ns) s := by
  simp only [wrapState, foldl_bind_eq_resolvePath]

/-- Options object `{ root: true }` passed to `store.commit`. -/
structure CommitOptions where
  root : Bool
deriving DecidableEq, Repr

/-- Options object `{ root: true }` passed to `store.dispatch`. -/
structure DispatchOptions where
  root : Bool
deriving DecidableEq, Repr

/-- One call into the external store engine, as observed at the engine
boundary (spec section 6). -/
inductive EngineCall where
  | commit (type' : String) (payload : Val) (opts : CommitOptions) : EngineCall
  | dispatch (type' : String) (payload : Val) (opts : DispatchOptions) : EngineCall
  | replaceState (s : Val) : EngineCall
  | registerModule (path : List String) : EngineCall
  | unregisterModule (path : List String) : EngineCall
  | hotUpdate : EngineCall
  | subscribe : EngineCall
  | subscribeAction : EngineCall
  | watch : EngineCall
deriving DecidableEq, Repr

/-- Trace of `store.commit(type, payload, options)`: one engine commit. -/
def storeCommit (type' : String) (payload : Val) (options : CommitOptions) :
    List EngineCall :=
  [EngineCall.commit type' payload options]

/-- Trace and result of `store.dispatch(type, payload, options)`: one engine
dispatch, returning whatever the engine resolves that dispatch to.  The
engine's resolution behaviour is abstracted as the parameter `resolve`. -/
def storeDispatch (resolve : String → Val → Val) (type' : String)
    (payload : Val) (options : DispatchOptions) : List EngineCall × Val :=
  ([EngineCall.dispatch type' payload options], resolve type' payload)

/-- One entry of a `mutations` (or `actions`) configuration mapping: the
mapping key under which the handler is exposed, and the handler function's own
declared name (`fn.name`), which `qualifyKey` reads back. -/
structure MutationEntry where
  key : String
  fnName : String
deriving DecidableEq, Repr

/-- The data a mutation proxy closes over: the qualified key computed at build
time (`const mutationKey = qualifyKey(mutation, namespace)` in
`src/mutations.ts`). -/
structure MutationProxy where
  mutationKey : String
deriving DecidableEq, Repr

/-- Embedding of `wrapMutations` from `src/mutations.ts`: for each entry
`(key, mutation)` of the configuration mapping, a proxy closed over
`qualifyKey(mutation, namespace)` is attached at property `key`
(`Object.defineProperty(commit, key, { value: deferred })`). -/
def wrapMutations (namespace' : String) (mutations : List MutationEntry) :
    List (String × MutationProxy) :=
  mutations.map (fun m => (m.key, { mutationKey := qualifyKey m.fnName namespace' }))

/-- Behaviour of calling a mutation proxy, from `src/mutations.ts`:
`const deferred = payload => commit(mutationKey, payload, { root: true })`,
where `commit` is the callable that forwards to
`store.commit(type, payload, options)`. -/
def mutationInvoke (pr : MutationProxy) (payload : Val) : List EngineCall :=
  storeCommit pr.mutationKey payload { root := true }

/-- Same structure for the `actions` mapping of the configuration. -/
structure ActionEntry where
  key : String
  fnName : String
deriving DecidableEq, Repr

/-- The data an action proxy closes over: the qualified key computed at build
time (`const actionKey = qualifyKey(action, namespace)` in `src/actions.ts`). -/
structure ActionProxy where
  actionKey : String
deriving DecidableEq, Repr

/-- Embedding of `wrapActions` from `src/actions.ts`: for each entry
`(key, action)` of the configuration mapping, a proxy closed over
`qualifyKey(action, namespace)` is attached at property `key`
(`Object.defineProperty(dispatch, key, { value: deferred })`). -/
def wrapActions (namespace' : String) (actions : List ActionEntry) :
    List (String × ActionProxy) :=
  actions.map (fun a => (a.key, { actionKey := qualifyKey a.fnName namespace' }))

/-- Behaviour of calling an action proxy, from `src/actions.ts`:
`const deferred = payload => store.dispatch(actionKey, payload, { root: true })`;
the proxy returns whatever the dispatch resolves to. -/
def actionInvoke (resolve : String → Val → Val) (pr : ActionProxy)
    (payload : Val) : List EngineCall × Val :=
  storeDispatch resolve pr.actionKey payload { root := true }

/-- C1: every proxy that `wrapMutations` exposes, when called with payload
`p`, performs exactly one engine-level commit — type the proxy's qualified key
(derived by `qualifyKey` from some configured entry), payload `p`, options
`{ root: true }` — and makes no other engine call (the trace is that
singleton). -/
theorem wrapMutations_invoke_commits_once (ns : String)
    (entries : List MutationEntry) (k : String) (pr : MutationProxy) (p : Val)
    (h : (k, pr) ∈ wrapMutations ns entries) :
    mutationInvoke pr p =
        [EngineCall.commit pr.mutationKey p { root := true }] ∧
      ∃ e ∈ entries, e.key = k ∧ pr.mutationKey = qualifyKey e.fnName ns := by
  constructor
  · rfl
  · simp only [wrapMutations, List.mem_map] at h
    obtain ⟨e, he, hk⟩ := h
    refine ⟨e, he, ?_, ?_⟩
    · exact congrArg Prod.fst hk
    · have := congrArg Prod.snd hk
      simp only at this
      exact (congrArg MutationProxy.mutationKey this).symm

/-- Witness for C1: the root-level entry `setTitle` under namespace `mod`. -/
theorem wrapMutations_invoke_commits_once_witness :
    mutationInvoke { mutationKey := "mod/setTitle" } (Val.vnat 3) =
        [EngineCall.commit "mod/setTitle" (Val.vnat 3) { root := true }] ∧
      ∃ e ∈ [MutationEntry.mk "setTitle" "setTitle"], e.key = "setTitle" ∧
        "mod/setTitle" = qualifyKey e.fnName "mod" :=
  wrapMutations_invoke_commits_once "mod" [MutationEntry.mk "setTitle" "setTitle"]
    "setTitle" { mutationKey := "mod/setTitle" } (Val.vnat 3) (by decide)

/-- C4: every proxy that `wrapActions` exposes, when called with payload `p`,
forwards exactly one engine-level dispatch — type the proxy's qualified key
(derived by `qualifyKey` from some configured entry), payload `p`, options
`{ root: true }` — and returns exactly the value the engine's dispatch
resolves to. -/
theorem wrapActions_invoke_dispatches_once (resolve : String → Val → Val)
    (ns : String) (entries : List ActionEntry) (k : String) (pr : ActionProxy)
    (p : Val) (h : (k, pr) ∈ wrapActions ns entries) :
    actionInvoke resolve pr p =
        ([EngineCall.dispatch pr.actionKey p { root := true }],
          resolve pr.actionKey p) ∧
      ∃ e ∈ entries, e.key = k ∧ pr.actionKey = qualifyKey e.fnName ns := by
  constructor
  · rfl
  · simp only [wrapActions, List.mem_map] at h
    obtain ⟨e, he, hk⟩ := h
    refine ⟨e, he, ?_, ?_⟩
    · exact congrArg Prod.fst hk
    · have := congrArg Prod.snd hk
      simp only at this
      exact (congrArg ActionProxy.actionKey this).symm

/-- Witness for C4: a concrete engine resolution returning `42`. -/
theorem wrapActions_invoke_dispatches_once_witness :
    actionInvoke (fun _ _ => Val.vnat 42) { actionKey := "mod/load" }
          (Val.vnat 3) =
        ([EngineCall.dispatch "mod/load" (Val.vnat 3) { root := true }],
          Val.vnat 42) ∧
      ∃ e ∈ [ActionEntry.mk "load" "load"], e.key = "load" ∧
        "mod/load" = qualifyKey e.fnName "mod" :=
  wrapActions_invoke_dispatches_once (fun _ _ => Val.vnat 42) "mod"
    [ActionEntry.mk "load" "load"] "load" { actionKey := "mod/load" }
    (Val.vnat 3) (by decide)

/-- Appending a fixed string on the left is injective. -/
theorem string_append_left_cancel (p a b : String) (h : p ++ a = p ++ b) :
    a = b := by
  have h2 := congrArg String.data h
  simp only [String.data_append] at h2
  exact String.ext (List.append_cancel_left h2)

/-- Qualifying two different names in the same namespace yields different
qualified keys. -/
theorem qualifyKey_inj (ns a b : String) (h : qualifyKey a ns = qualifyKey b ns) :
    a = b := by
  unfold qualifyKey at h
  by_cases hns : ns = ""
  · simpa [hns] using h
  · simp only [if_neg hns] at h
    have h3 : (ns ++ "/") ++ a = (ns ++ "/") ++ b := by
      simpa [String.append_assoc] using h
    exact string_append_left_cancel _ _ _ h3

/-- C10: for a configuration entry with mapping key `key` and handler declared
name `fnName`, the proxy is exposed under the property `key`, but the key it
commits or dispatches under is `qualifyKey fnName ns`, derived from the
function's own name; whenever `fnName ≠ key`, that engine key differs from the
one the mapping key would have produced. -/
theorem proxy_routes_by_function_name (ns key fnName : String) (p : Val) :
    List.lookup key (wrapMutations ns [MutationEntry.mk key fnName]) =
        some { mutationKey := qualifyKey fnName ns } ∧
      List.lookup key (wrapActions ns [ActionEntry.mk key fnName]) =
        some { actionKey := qualifyKey fnName ns } ∧
      mutationInvoke { mutationKey := qualifyKey fnName ns } p =
        [EngineCall.commit (qualifyKey fnName ns) p { root := true }] ∧
      (fnName ≠ key → qualifyKey fnName ns ≠ qualifyKey key ns) := by
  refine ⟨?_, ?_, rfl, ?_⟩
  · simp [wrapMutations, List.lookup]
  · simp [wrapActions, List.lookup]
  · intro hne heq
    exact hne (qualifyKey_inj ns fnName key heq)

/-- Witness for C10: mapping key `alias` bound to a function named `real`
under the root namespace routes to engine key `real`, not `alias`. -/
theorem proxy_routes_by_function_name_witness :
    List.lookup "alias" (wrapMutations "" [MutationEntry.mk "alias" "real"]) =
        some { mutationKey := qualifyKey "real" "" } ∧
      List.lookup "alias" (wrapActions "" [ActionEntry.mk "alias" "real"]) =
        some { actionKey := qualifyKey "real" "" } ∧
      qualifyKey "real" "" ≠ qualifyKey "alias" "" :=
  ⟨(proxy_routes_by_function_name "" "alias" "real" (Val.vnat 0)).1,
    (proxy_routes_by_function_name "" "alias" "real" (Val.vnat 0)).2.1,
    (proxy_routes_by_function_name "" "alias" "real" (Val.vnat 0)).2.2.2
      (by decide)⟩

/-- A mutation event `{ type, payload }` handed to `store.subscribe`
callbacks by the engine (spec section 6). -/
structure MutationEvent where
  type' : String
  payload : Val
deriving DecidableEq, Repr

/-- An action event `{ type, payload }` handed to `store.subscribeAction`
callbacks by the engine (spec section 6). -/
structure ActionEvent where
  type' : String
  payload : Val
deriving DecidableEq, Repr

/-- Embedding of the closure `listen` registers in `src/mutations.ts`:
```
store.subscribe(({ type, payload }) => {
  if (type === mutationKey) { handler.call(null, payload); }
});
```
The result is `some p` exactly when the handler is invoked, with `p` the value
it receives. -/
def listenFilter (mutationKey : String) (ev : MutationEvent) : Option Val :=
  if ev.type' = mutationKey then some ev.payload else none

/-- Embedding of the closure `before` registers in `src/actions.ts`
(`store.subscribeAction({ before: ({ type, payload }) => { if (type ===
actionKey) handler.call(null, payload) } })`). -/
def beforeFilter (actionKey : String) (ev : ActionEvent) : Option Val :=
  if ev.type' = actionKey then some ev.payload else none

/-- Embedding of the closure `after` registers in `src/actions.ts`
(`store.subscribeAction({ after: ({ type, payload }) => { if (type ===
actionKey) handler.call(null, payload) } })`). -/
def afterFilter (actionKey : String) (ev : ActionEvent) : Option Val :=
  if ev.type' = actionKey then some ev.payload else none

/-- Which half of a `subscribeAction({ before?, after? })` registration a
subscriber sits in. -/
inductive SubPhase where
  | before : SubPhase
  | after : SubPhase
deriving DecidableEq, Repr

/-- One registered action subscriber: the handler (identified by `hid`), the
phase it registered for, and the qualified key its filtering closure closed
over. -/
structure ActionSub where
  hid : Nat
  phase : SubPhase
  key : String
deriving DecidableEq, Repr

/-- Modelled from the spec: the external store engine's action dispatch loop
(spec sections 4.5 and 6; the engine itself is not under `src/`).  Dispatch
builds one event `{ type, payload }`, hands it to every `before` subscriber,
evaluates the action's result, then hands the *same* event to every `after`
subscriber.  Each subscriber is the filtering closure from `src/actions.ts`,
so an invocation `(hid, q)` means handler `hid` was called with `q`. -/
def engineDispatchLoop (resolve : String → Val → Val) (subs : List ActionSub)
    (type' : String) (payload : Val) :
    List (Nat × Val) × List (Nat × Val) × Val :=
  let ev : ActionEvent := { type' := type', payload := payload }
  let befores := (subs.filter (fun s => s.phase = SubPhase.before)).filterMap
    (fun s => (beforeFilter s.key ev).map (fun q => (s.hid, q)))
  let res := resolve type' payload
  let afters := (subs.filter (fun s => s.phase = SubPhase.after)).filterMap
    (fun s => (afterFilter s.key ev).map (fun q => (s.hid, q)))
  (befores, afters, res)

/-- C5: a handler registered through `listen`, `before` or `after` is invoked
on an engine event exactly when the event's `type` equals the entry's
qualified key, and on a match it receives the event's payload.  For `after`
handlers the engine's dispatch loop delivers the originally-dispatched
payload: every `after` invocation carries the dispatched payload, and the
`after` invocations do not depend on the action's resolved return value at
all. -/
theorem handler_filtering (k : String) :
    (∀ ev p, listenFilter k ev = some p ↔ ev.type' = k ∧ p = ev.payload) ∧
      (∀ ev p, beforeFilter k ev = some p ↔ ev.type' = k ∧ p = ev.payload) ∧
      (∀ ev p, afterFilter k ev = some p ↔ ev.type' = k ∧ p = ev.payload) ∧
      (∀ resolve subs t p hid q,
        (hid, q) ∈ (engineDispatchLoop resolve subs t p).2.1 → q = p) ∧
      (∀ resolve resolve2 subs t p,
        (engineDispatchLoop resolve subs t p).2.1 =
          (engineDispatchLoop resolve2 subs t p).2.1) := by
  refine ⟨?_, ?_, ?_, ?_, ?_⟩
  · intro ev p
    unfold listenFilter
    by_cases h : ev.type' = k <;> simp [h, eq_comm]
  · intro ev p
    unfold beforeFilter
    by_cases h : ev.type' = k <;> simp [h, eq_comm]
  · intro ev p
    unfold afterFilter
    by_cases h : ev.type' = k <;> simp [h, eq_comm]
  · intro resolve subs t p hid q hmem
    simp only [engineDispatchLoop, List.mem_filterMap, Option.map_eq_some'] at hmem
    obtain ⟨s, _, q2, hf, heq⟩ := hmem
    unfold afterFilter at hf
    by_cases h : ({ type' := t, payload := p } : ActionEvent).type' = s.key
    · simp only [if_pos h, Option.some.injEq] at hf
      cases heq
      simpa using hf.symm
    · simp [if_neg h] at hf
  · intro resolve resolve2 subs t p
    rfl

/-- Witness for C5: a matching event invokes the handler with its payload, a
mismatched event does not, and the `after` invocation during a dispatch
carries the dispatched payload. -/
theorem handler_filtering_witness :
    listenFilter "m/set" { type' := "m/set", payload := Val.vnat 7 } =
        some (Val.vnat 7) ∧
      (listenFilter "m/set" { type' := "other", payload := Val.vnat 7 } =
          some (Val.vnat 7) → False) ∧
      Val.vnat 7 = Val.vnat 7 := by
  refine ⟨?_, ?_, ?_⟩
  · exact ((handler_filtering "m/set").1
      { type' := "m/set", payload := Val.vnat 7 } (Val.vnat 7)).mpr
      ⟨rfl, rfl⟩
  · intro h
    have := ((handler_filtering "m/set").1
      { type' := "other", payload := Val.vnat 7 } (Val.vnat 7)).mp h
    exact absurd this.1 (by decide)
  · exact (handler_filtering "m/set").2.2.2.1 (fun _ _ => Val.vnat 42)
      [{ hid := 5, phase := SubPhase.after, key := "m/set" }] "m/set"
      (Val.vnat 7) 5 (Val.vnat 7) (by decide)

/-- The store engine's mutation-subscriber registry, as a list of entries
`(handle id, closed-over qualified key)`.  Modelled from the spec: the
engine's `subscribe(fn) -> unsubscribe()` facility is an external collaborator
(not under `src/`); `listen`/`before`/`after` return its unsubscribe handle,
which removes the registered entry from the table and stops delivery.  Every
entry is one of the filtering closures of `src/mutations.ts` /
`src/actions.ts`, so it is characterised by its key. -/
structure Registry where
  subs : List (Nat × String)
deriving DecidableEq, Repr

/-- Registering a subscriber appends it to the engine's table. -/
def engineSubscribe (r : Registry) (hid : Nat) (key : String) : Registry :=
  { subs := r.subs ++ [(hid, key)] }

/-- Embedding of `listen` from `src/mutations.ts` against the modelled
registry: it registers the filtering closure for the proxy's qualified key and
returns the engine's unsubscribe handle. -/
def mutationListen (r : Registry) (hid : Nat) (pr : MutationProxy) :
    Registry × Nat :=
  (engineSubscribe r hid pr.mutationKey, hid)

/-- Calling an unsubscribe handle: the engine removes the entry registered
under that handle from its table (and nothing else); a handle whose entry is
already gone removes nothing. -/
def engineUnsubscribe (r : Registry) (handle : Nat) : Registry :=
  { subs := r.subs.filter (fun s => s.1 ≠ handle) }

/-- Delivery of a mutation event: the engine calls every registered closure
with the event, and each closure filters by its own key, so handler `hid`
fires with `q` exactly when its key matches the event type. -/
def notifyRegistry (r : Registry) (ev : MutationEvent) : List (Nat × Val) :=
  r.subs.filterMap (fun s => (listenFilter s.2 ev).map (fun q => (s.1, q)))

/-- C7: calling an unsubscribe handle a second (or later) time is a no-op: it
leaves the registry exactly as the first call left it, never removes an entry
belonging to a different handle (no double-remove), and after the first call
no event is ever delivered to the unsubscribed handler — including a handler
that was registered through `listen`. -/
theorem unsubscribe_idempotent (r : Registry) (handle : Nat) :
    engineUnsubscribe (engineUnsubscribe r handle) handle =
        engineUnsubscribe r handle ∧
      (∀ s, s ∈ r.subs → s.1 ≠ handle → s ∈ (engineUnsubscribe r handle).subs) ∧
      (∀ s, s ∈ (engineUnsubscribe r handle).subs → s ∈ r.subs) ∧
      (∀ ev q, (handle, q) ∉ notifyRegistry (engineUnsubscribe r handle) ev) ∧
      (∀ pr ev q,
        (handle, q) ∉
          notifyRegistry
            (engineUnsubscribe (mutationListen r handle pr).1 handle) ev) := by
  refine ⟨?_, ?_, ?_, ?_, ?_⟩
  · simp [engineUnsubscribe, List.filter_filter]
  · intro s hs hne
    simp only [engineUnsubscribe, List.mem_filter, decide_eq_true_eq]
    exact ⟨hs, hne⟩
  · intro s hs
    exact List.mem_of_mem_filter hs
  · intro ev q hmem
    simp only [notifyRegistry, List.mem_filterMap, Option.map_eq_some'] at hmem
    obtain ⟨s, hs, q2, _, heq⟩ := hmem
    have h1 : s.1 = handle := congrArg Prod.fst heq
    have := List.of_mem_filter hs
    simp only [decide_eq_true_eq] at this
    exact this h1
  · intro pr ev q hmem
    simp only [notifyRegistry, List.mem_filterMap, Option.map_eq_some'] at hmem
    obtain ⟨s, hs, q2, _, heq⟩ := hmem
    have h1 : s.1 = handle := congrArg Prod.fst heq
    have := List.of_mem_filter hs
    simp only [decide_eq_true_eq] at this
    exact this h1

/-- Witness for C7 on a concrete registry with two subscribers. -/
theorem unsubscribe_idempotent_witness :
    engineUnsubscribe
          (engineUnsubscribe { subs := [(1, "a"), (2, "b")] } 1) 1 =
        engineUnsubscribe { subs := [(1, "a"), (2, "b")] } 1 ∧
      (2, "b") ∈ (engineUnsubscribe { subs := [(1, "a"), (2, "b")] } 1).subs ∧
      (1, Val.vnat 5) ∉
        notifyRegistry (engineUnsubscribe { subs := [(1, "a"), (2, "b")] } 1)
          { type' := "a", payload := Val.vnat 5 } :=
  ⟨(unsubscribe_idempotent { subs := [(1, "a"), (2, "b")] } 1).1,
    (unsubscribe_idempotent { subs := [(1, "a"), (2, "b")] } 1).2.1
      (2, "b") (by decide) (by decide),
    (unsubscribe_idempotent { subs := [(1, "a"), (2, "b")] } 1).2.2.2.1
      { type' := "a", payload := Val.vnat 5 } (Val.vnat 5)⟩

/-- Embedding of the child-namespace computation in `wrapModules`
(`src/store.ts`):
```
const name = options.namespaced
  ? `${parent}${parent === "" ? "" : "/"}${key}`
  : "";
```
-/
def wrapModulesName (parent : String) (key : String) (namespaced : Bool) :
    String :=
  if namespaced then parent ++ (if parent = "" then "" else "/") ++ key else ""

/-- Counterexample to C3: for a non-namespaced module named `m` under a parent
whose namespace is `mod`, the claim says the child wrapper's namespace is the
parent's namespace `mod` unchanged; the code computes the empty string. -/
theorem wrapModulesName_nonNamespaced_counterexample :
    wrapModulesName "mod" "m" false = "" ∧ ("" : String) ≠ "mod" := by
  constructor
  · rfl
  · decide

/-- C3 (amended): for a module entry `(moduleName, moduleConfig)` under a
parent with namespace `parentNamespace`, the child wrapper's namespace is
`parentNamespace ++ "/" ++ moduleName` when `moduleConfig.namespaced` is true
and the parent namespace is non-empty, just `moduleName` when it is true and
the parent namespace is empty, and the *empty string* when it is false — so a
non-namespaced module's members produce bare qualified keys, which coincide
with the parent's keys exactly when the parent is itself the root (empty
namespace). -/
theorem wrapModulesName_spec (parent key : String) :
    wrapModulesName parent key true =
        (if parent = "" then key else parent ++ "/" ++ key) ∧
      wrapModulesName parent key false = "" ∧
      (parent = "" → wrapModulesName parent key false = parent) ∧
      (∀ n, qualifyKey n (wrapModulesName parent key false) = n) := by
  refine ⟨?_, rfl, ?_, ?_⟩
  · by_cases h : parent = "" <;> simp [wrapModulesName, h]
  · intro h
    simp [wrapModulesName, h]
  · intro n
    simp [wrapModulesName, qualifyKey]

/-- Witness for C3 (amended) at a namespaced child of a namespaced parent and
a non-namespaced child of the root. -/
theorem wrapModulesName_spec_witness :
    wrapModulesName "parent" "mod" true =
        (if ("parent" : String) = "" then "mod" else "parent" ++ "/" ++ "mod") ∧
      wrapModulesName "" "mod" false = "" :=
  ⟨(wrapModulesName_spec "parent" "mod").1,
    (wrapModulesName_spec "" "mod").2.2.1 rfl⟩

/-- Trace of the wrapper's `registerModule`, which runs
`this.store.registerModule(path, module, options)` (`src/store.ts`). -/
def registerModuleMethod (path : List String) : List EngineCall :=
  [EngineCall.registerModule path]

/-- Trace of the wrapper's `unregisterModule`, which runs
`this.store.unregisterModule(path)` (`src/store.ts`). -/
def unregisterModuleMethod (path : List String) : List EngineCall :=
  [EngineCall.unregisterModule path]

/-- Trace of the wrapper's `hotUpdate`, which runs
`this.store.hotUpdate(options)` (`src/store.ts`). -/
def hotUpdateMethod : List EngineCall :=
  [EngineCall.hotUpdate]

/-- Trace of the wrapper's raw `subscribe`, which runs
`this.store.subscribe(fn)` (`src/store.ts`). -/
def subscribeMethod : List EngineCall :=
  [EngineCall.subscribe]

/-- Trace of the wrapper's raw `subscribeAction`, which runs
`this.store.subscribeAction(fn)` (`src/store.ts`). -/
def subscribeActionMethod : List EngineCall :=
  [EngineCall.subscribeAction]

/-- Embedding of the wrapper's `replaceState` as written in the source:
`public replaceState(state) { return this.replaceState(state); }`.  The body
calls the wrapper's *own* `replaceState` again — not
`this.store.replaceState` — so the call recurses forever and never reaches the
engine.  The fuel argument bounds the recursion depth (the JS call stack): no
finite depth produces an engine call. -/
def replaceStateMethod : Nat → Val → List EngineCall
  | 0, _ => []
  | n + 1, s => replaceStateMethod n s

/-- C8 evaluation: the wrapper's register-module, unregister-module,
hot-update and raw subscribe/subscribeAction operations each perform exactly
the corresponding engine operation with the same arguments, but `replaceState`
never performs any engine call at any recursion depth — in particular it never
performs the engine-level `replaceState` the claim requires. -/
theorem replaceState_never_reaches_engine :
    (∀ path, registerModuleMethod path = [EngineCall.registerModule path]) ∧
      (∀ path, unregisterModuleMethod path = [EngineCall.unregisterModule path]) ∧
      hotUpdateMethod = [EngineCall.hotUpdate] ∧
      subscribeMethod = [EngineCall.subscribe] ∧
      subscribeActionMethod = [EngineCall.subscribeAction] ∧
      (∀ fuel s, replaceStateMethod fuel s = [] ∧
        replaceStateMethod fuel s ≠ [EngineCall.replaceState s]) := by
  refine ⟨fun _ => rfl, fun _ => rfl, rfl, rfl, rfl, ?_⟩
  intro fuel s
  have hempty : ∀ n, replaceStateMethod n s = [] := by
    intro n
    induction n with
    | zero => rfl
    | succ m ih => simpa [replaceStateMethod] using ih
  refine ⟨hempty fuel, ?_⟩
  rw [hempty fuel]
  intro h
  exact List.cons_ne_nil _ _ h.symm

/-- The engine's own mutable cell holding the root state tree. -/
structure EngineState where
  stateTree : Val
deriving DecidableEq, Repr

/-- The engine's `replaceState(newState)`: it swaps the root state object for
a new one. -/
def engineReplaceState (e : EngineState) (s : Val) : EngineState :=
  { e with stateTree := s }

/-- The Store Wrapper's fields bound by the constructor (`src/store.ts` lines
162–175), restricted to the fields the claims about it need (the getter and
module collections are built the same way and are omitted).  Each field is
computed exactly once, in the constructor body; in particular `state` holds
the result of `wrapState(name, this.store)` evaluated against the engine's
state tree as it is at construction time. -/
structure StoreWrapper where
  name : String
  actions : List (String × ActionProxy)
  state : Option Val
  mutations : List (String × MutationProxy)
deriving DecidableEq, Repr

/-- Embedding of the Store constructor: `this.actions = wrapActions(...)`,
`this.state = wrapState(name, this.store)`, `this.mutations =
wrapMutations(...)`, all evaluated once against the engine state `e`. -/
def mkStore (acts : List ActionEntry) (muts : List MutationEntry)
    (e : EngineState) (name : String) : StoreWrapper :=
  { name := name
    actions := wrapActions name acts
    state := wrapState name e.stateTree
    mutations := wrapMutations name muts }

/-- Constructing a wrapper and then performing an engine-level replace-state,
returning the wrapper as observed afterwards together with the new engine
state. -/
def wrapperThenReplace (acts : List ActionEntry) (muts : List MutationEntry)
    (e : EngineState) (name : String) (s' : Val) :
    StoreWrapper × EngineState :=
  let w := mkStore acts muts e name
  let e2 := engineReplaceState e s'
  (w, e2)

/-- C9: the wrapper's `state` is bound once, at construction, to the sub-state
resolved from the engine's then-current state tree; an engine-level
replace-state that swaps the root state to `s'` leaves the wrapper — its
`state` field and every other field — exactly as constructed, while the
engine's tree really is swapped (and resolving through the engine afterwards
would read the new tree). -/
theorem wrapper_state_bound_once (acts : List ActionEntry)
    (muts : List MutationEntry) (e : EngineState) (name : String) (s' : Val) :
    (wrapperThenReplace acts muts e name s').1.state =
        wrapState name e.stateTree ∧
      (wrapperThenReplace acts muts e name s').1 = mkStore acts muts e name ∧
      (wrapperThenReplace acts muts e name s').2.stateTree = s' ∧
      wrapState name (engineReplaceState e s').stateTree = wrapState name s' :=
  ⟨rfl, rfl, rfl, rfl⟩

end VuexTstore
